import Mathlib

/-!
Verification of the Rating Resolution Pipeline of the untappd-helper
repository (background service worker: cache, rate limiter, dual-strategy
fetch, HTML text extraction).

The definitions below are a shallow embedding of src/background.js
(the inlined pipeline actually used by the resolver) and, where a claim
cites it, of src/utils.js.  Strings are Lean strings, JS numbers that can
be NaN are modelled by the type JsNum, epoch milliseconds are Nat, the
chrome.storage objects are association lists, and the network plus clock
are an explicit environment record.
-/

namespace Untappd

/-- JS number that may be NaN: result type of parseInt and parseFloat. -/
inductive JsNum where
  | nan : JsNum
  | num : ℚ → JsNum
deriving DecidableEq

/-- Constant CACHE_TTL_MS from background.js line 9: 7 days. -/
def CACHE_TTL_MS : Nat := 7 * 24 * 60 * 60 * 1000

/-- Constant RATE_LIMIT_REQUESTS from background.js line 10. -/
def RATE_LIMIT_REQUESTS : Nat := 10

/-- Constant RATE_LIMIT_WINDOW_MS from background.js line 11: 1 minute. -/
def RATE_LIMIT_WINDOW_MS : Nat := 60 * 1000

/-- The JS regex whitespace class (backslash-s), also used by trim. -/
def isJsSpace (c : Char) : Bool :=
  c == ' ' || c == '\t' || c == '\n' || c == '\r' || c == '\x0b' ||
  c == '\x0c' || c == ' ' || c == '﻿'

/-- String.prototype.trim: drop whitespace at both ends. -/
def trimJS (s : List Char) : List Char :=
  (((s.dropWhile isJsSpace).reverse).dropWhile isJsSpace).reverse

/-- Helper of collapseWs: the Bool records whether the previous character
was part of a whitespace run already replaced by one underscore. -/
def collapseWsAux : Bool → List Char → List Char
  | _, [] => []
  | inWs, c :: cs =>
    if isJsSpace c then
      if inWs then collapseWsAux true cs else '_' :: collapseWsAux true cs
    else c :: collapseWsAux false cs

/-- replace(/\s+/g, underscore): every whitespace run becomes one underscore. -/
def collapseWs (s : List Char) : List Char := collapseWsAux false s

/-- The normalization used by generateCacheKey in background.js lines 71-72:
toLowerCase, trim, collapse whitespace runs to underscores. -/
def normalizeJS (s : String) : String :=
  List.asString (collapseWs (trimJS (s.data.map Char.toLower)))

/-- generateCacheKey from background.js lines 70-74 (identical to
CacheManager.generateKey in utils.js lines 21-25). -/
def generateCacheKey (brewery beerName : String) : String :=
  normalizeJS brewery ++ "_" ++ normalizeJS beerName

/-! ### Regex transliterations for parseSearchResults

Each JS regex of background.js lines 181-254 is transliterated into an
executable leftmost-match function on character lists.  Greedy character
classes followed by a literal not in the class are deterministic, so each
pattern reduces to takeWhile spans; leftmost matching is a scan over
suffixes. -/

/-- Case-insensitive character equality (the /i regex flag). -/
def ciEq (a b : Char) : Bool := a.toLower == b.toLower

/-- Case-insensitive prefix test: first list is the pattern. -/
def ciStartsWith : List Char → List Char → Bool
  | [], _ => true
  | _ :: _, [] => false
  | p :: ps, c :: cs => ciEq p c && ciStartsWith ps cs

/-- Case-insensitive substring test. -/
def ciContains (pat : List Char) : List Char → Bool
  | [] => ciStartsWith pat []
  | c :: cs => ciStartsWith pat (c :: cs) || ciContains pat cs

/-- Leftmost match: try the pattern body at every suffix, left to right;
this is how a JS regex without anchors selects its match. -/
def scanMatch (m : List Char → Option (List Char)) : List Char → Option (List Char)
  | [] => m []
  | c :: cs => (m (c :: cs)).orElse fun _ => scanMatch m cs

/-- First result of f over a list. -/
def firstSome (f : Nat → Option (List Char)) : List Nat → Option (List Char)
  | [] => none
  | i :: is => (f i).orElse fun _ => firstSome f is

/-- Start indices of all case-insensitive occurrences of pat, left to right. -/
def occIdxs (pat : List Char) : List Char → List Nat
  | [] => if ciStartsWith pat [] then [0] else []
  | c :: cs =>
    (if ciStartsWith pat (c :: cs) then [0] else []) ++
      (occIdxs pat cs).map (fun i => i + 1)

/-- Split at the first occurrence of the character stop: returns the span
before it and the text after it, or none when stop is absent.  Models a
greedy negated character class followed by the literal stop. -/
def spanUntil (stop : Char) : List Char → Option (List Char × List Char)
  | [] => none
  | c :: cs =>
    if c == stop then some ([], cs)
    else (spanUntil stop cs).map (fun p => (c :: p.1, p.2))

/-- Character class [0-9.] of the first two rating patterns. -/
def isDigitDot (c : Char) : Bool := c.isDigit || c == '.'

/-- Character class [digits . ,] of the rating-count patterns. -/
def isCountChar (c : Char) : Bool := c.isDigit || c == '.' || c == ','

/-- Character class [0-4] of the strict rating patterns. -/
def isRatingLead (c : Char) : Bool := '0' ≤ c && c ≤ '4'

/-- Capture ([0-9.]+): nonempty maximal run of digits and dots. -/
def capDigitsDots (s : List Char) : Option (List Char) :=
  let cap := s.takeWhile isDigitDot
  if cap.isEmpty then none else some cap

/-- Capture ([^<]+): nonempty maximal run without an angle bracket. -/
def capName (s : List Char) : Option (List Char) :=
  let cap := s.takeWhile (fun c => !(c == '<'))
  if cap.isEmpty then none else some cap

/-- Tail of the raters pattern: optional opening parenthesis, then a
nonempty maximal run of count characters. -/
def capCountAfterParen (s : List Char) : Option (List Char) :=
  let s2 := match s with
    | '(' :: rest => rest
    | other => other
  let cap := s2.takeWhile isCountChar
  if cap.isEmpty then none else some cap

/-- Shared shape of the patterns that begin with a quoted class attribute
containing a given word: class=quote [^quote]*WORD[^quote]*quote [^>]*>
followed by a pattern-specific tail.  The closing quote is necessarily the
first quote after the attribute opener, and the closing angle bracket the
first one after that quote. -/
def classWordThen (word : List Char) (tail : List Char → Option (List Char))
    (s : List Char) : Option (List Char) :=
  if ciStartsWith ("class=\"".data) s then
    match spanUntil '"' (s.drop 7) with
    | none => none
    | some (q, rest2) =>
      if ciContains word q then
        match spanUntil '>' rest2 with
        | none => none
        | some (_, rest3) => tail rest3
      else none
  else none

/-- Rating pattern 1 (background.js line 187), case-insensitive. -/
def ratingM1 (s : List Char) : Option (List Char) :=
  scanMatch (classWordThen ("num".data) capDigitsDots) s

/-- Body of rating pattern 2 (background.js line 188). -/
def ratingM2core (s : List Char) : Option (List Char) :=
  if ciStartsWith ("rating".data) s then
    match spanUntil '>' (s.drop 6) with
    | none => none
    | some (_, rest) => capDigitsDots rest
  else none

/-- Rating pattern 2 (background.js line 188), case-insensitive. -/
def ratingM2 (s : List Char) : Option (List Char) :=
  scanMatch ratingM2core s

/-- Body of rating pattern 3 (background.js line 189), case-sensitive:
angle bracket, [0-4], dot, one or two digits, closing angle bracket.  The
two-digit form is tried first (greedy repetition). -/
def ratingM3core (s : List Char) : Option (List Char) :=
  match s with
  | '>' :: c :: '.' :: d1 :: d2 :: d3 :: _ =>
    if isRatingLead c && d1.isDigit then
      if d2.isDigit && d3 == '<' then some [c, '.', d1, d2]
      else if d2 == '<' then some [c, '.', d1]
      else none
    else none
  | ['>', c, '.', d1, d2] =>
    if isRatingLead c && d1.isDigit && d2 == '<' then some [c, '.', d1]
    else none
  | _ => none

/-- Rating pattern 3 (background.js line 189). -/
def ratingM3 (s : List Char) : Option (List Char) :=
  scanMatch ratingM3core s

/-- The rating match of background.js lines 187-189: the three patterns
joined by JS logical-or, each scanned over the whole block. -/
def itemRatingMatch (item : List Char) : Option (List Char) :=
  (ratingM1 item).orElse fun _ =>
    (ratingM2 item).orElse fun _ => ratingM3 item

/-- Count pattern 1 (background.js line 192), case-insensitive. -/
def countM1 (s : List Char) : Option (List Char) :=
  scanMatch (classWordThen ("raters".data) capCountAfterParen) s

/-- Body of count pattern 2 (background.js line 193): parenthesized
nonempty run of count characters. -/
def countM2core (s : List Char) : Option (List Char) :=
  match s with
  | '(' :: rest =>
    let cap := rest.takeWhile isCountChar
    if cap.isEmpty then none
    else
      match rest.drop cap.length with
      | ')' :: _ => some cap
      | _ => none
  | _ => none

/-- Count pattern 2 (background.js line 193). -/
def countM2 (s : List Char) : Option (List Char) :=
  scanMatch countM2core s

/-- Body of count pattern 3 (background.js line 194): a nonempty run of
count characters, optional whitespace, then the word Rating with an
optional trailing s, case-insensitive. -/
def countM3core (s : List Char) : Option (List Char) :=
  let cap := s.takeWhile isCountChar
  if cap.isEmpty then none
  else
    let rest := (s.drop cap.length).dropWhile isJsSpace
    if ciStartsWith ("Rating".data) rest then some cap else none

/-- Count pattern 3 (background.js line 194). -/
def countM3 (s : List Char) : Option (List Char) :=
  scanMatch countM3core s

/-- The count match of background.js lines 192-194. -/
def itemCountMatch (item : List Char) : Option (List Char) :=
  (countM1 item).orElse fun _ =>
    (countM2 item).orElse fun _ => countM3 item

/-- Body of the URL pattern (background.js lines 197 and 237): href=quote
then a slash-b-slash path of at least one further non-quote character up
to the closing quote.  The capture keeps the original casing. -/
def urlMcore (s : List Char) : Option (List Char) :=
  if ciStartsWith ("href=\"".data) s then
    let rest := s.drop 6
    if ciStartsWith ("/b/".data) rest then
      let rest2 := rest.drop 3
      let run := rest2.takeWhile (fun c => !(c == '"'))
      if run.isEmpty then none
      else
        match rest2.drop run.length with
        | '"' :: _ => some (rest.take 3 ++ run)
        | _ => none
    else none
  else none

/-- The URL match (background.js lines 197 and 237), case-insensitive. -/
def urlM (s : List Char) : Option (List Char) :=
  scanMatch urlMcore s

/-- Name pattern 1 (background.js line 200), case-insensitive. -/
def nameM1 (s : List Char) : Option (List Char) :=
  scanMatch (classWordThen ("name".data) capName) s

/-- Continuation of name pattern 2 after a href=quote occurrence inside
the anchor tag: slash-b-slash, any non-quote run, closing quote, rest of
the tag up to its closing angle bracket, then the nonempty text capture. -/
def nameM2after (tail : List Char) : Option (List Char) :=
  if ciStartsWith ("/b/".data) tail then
    match spanUntil '"' (tail.drop 3) with
    | none => none
    | some (_, rest2) =>
      match spanUntil '>' rest2 with
      | none => none
      | some (_, rest3) => capName rest3
    else none

/-- Body of name pattern 2 (background.js line 201): an anchor tag whose
angle-bracket-free head contains href=quote (greedy repetition tries the
rightmost occurrence first). -/
def nameM2core (s : List Char) : Option (List Char) :=
  if ciStartsWith ("<a".data) s then
    let rest := s.drop 2
    let region := rest.takeWhile (fun c => !(c == '>'))
    firstSome (fun i => nameM2after (rest.drop (i + 6)))
      ((occIdxs ("href=\"".data) region).reverse)
  else none

/-- Name pattern 2 (background.js line 201). -/
def nameM2 (s : List Char) : Option (List Char) :=
  scanMatch nameM2core s

/-- The name match of background.js lines 200-201. -/
def itemNameMatch (item : List Char) : Option (List Char) :=
  (nameM1 item).orElse fun _ => nameM2 item

/-- Does the text start with a closing div, optional whitespace, and a
second closing div (the terminator of the beer-item pattern)? -/
def closeDivAt (s : List Char) : Bool :=
  ciStartsWith ("</div>".data) s &&
    ciStartsWith ("</div>".data) ((s.drop 6).dropWhile isJsSpace)

/-- The lazy any-character capture of the beer-item pattern: shortest
content after which the double closing div appears. -/
def lazyContent : List Char → Option (List Char)
  | [] => none
  | c :: cs =>
    if closeDivAt (c :: cs) then some []
    else (lazyContent cs).map (fun cap => c :: cap)

/-- Continuation of the beer-item pattern after a class=quote occurrence:
the quote span must contain beer-item, then the rest of the opening tag up
to its closing angle bracket, then the lazy content capture. -/
def beerItemAfterClass (s : List Char) : Option (List Char) :=
  match spanUntil '"' s with
  | none => none
  | some (q, rest) =>
    if ciContains ("beer-item".data) q then
      match spanUntil '>' rest with
      | none => none
      | some (_, content) => lazyContent content
    else none

/-- Body of the beer-item pattern (background.js line 181): an opening div
whose angle-bracket-free head contains class=quote (greedy repetition
tries the rightmost occurrence first). -/
def beerItemCore (s : List Char) : Option (List Char) :=
  if ciStartsWith ("<div".data) s then
    let rest := s.drop 4
    let region := rest.takeWhile (fun c => !(c == '>'))
    firstSome (fun i => beerItemAfterClass (rest.drop (i + 7)))
      ((occIdxs ("class=\"".data) region).reverse)
  else none

/-- The beer-item block match (background.js line 181), case-insensitive:
returns the captured block content. -/
def beerItemM (html : List Char) : Option (List Char) :=
  scanMatch beerItemCore html

/-- Body of the fallback count pattern (background.js line 233): an
opening parenthesis, a digit, a run of count characters, a closing
parenthesis. -/
def fbCountCore (s : List Char) : Option (List Char) :=
  match s with
  | '(' :: d :: rest =>
    if d.isDigit then
      let run := rest.takeWhile isCountChar
      match rest.drop run.length with
      | ')' :: _ => some (d :: run)
      | _ => none
    else none
  | _ => none

/-- The fallback count match (background.js line 233). -/
def fbCountM (s : List Char) : Option (List Char) :=
  scanMatch fbCountCore s

/-- A strict rating number at this position: [0-4], dot, one or two
digits, two digits preferred (greedy), with no following-context
requirement. -/
def ratNumAt (s : List Char) : Option (List Char) :=
  match s with
  | c :: '.' :: d1 :: rest =>
    if isRatingLead c && d1.isDigit then
      match rest with
      | d2 :: _ => if d2.isDigit then some [c, '.', d1, d2] else some [c, '.', d1]
      | [] => some [c, '.', d1]
    else none
  | _ => none

/-- Lazy dot-star then a strict rating number: first position at which the
rating number matches. -/
def lazyFindRat : List Char → Option (List Char)
  | [] => none
  | c :: cs => (ratNumAt (c :: cs)).orElse fun _ => lazyFindRat cs

/-- Fallback rating pattern 1 (background.js line 253), flags i and s:
the caps class attribute shape, the rest of the tag, then a lazy scan for
a strict rating number. -/
def fbRating1 (s : List Char) : Option (List Char) :=
  scanMatch (classWordThen ("caps".data) lazyFindRat) s

/-- Body of fallback rating pattern 2 (background.js line 254). -/
def fbRating2core (s : List Char) : Option (List Char) :=
  if ciStartsWith ("rating_score".data) s then
    match spanUntil '>' (s.drop 12) with
    | none => none
    | some (_, rest) => ratNumAt rest
  else none

/-- Fallback rating pattern 2 (background.js line 254), case-insensitive. -/
def fbRating2 (s : List Char) : Option (List Char) :=
  scanMatch fbRating2core s

/-- The fallback rating match of background.js lines 253-254. -/
def fbRatingMatch (s : List Char) : Option (List Char) :=
  (fbRating1 s).orElse fun _ => fbRating2 s

/-! ### Number parsing -/

/-- Decimal value of a digit list. -/
def digitsToNat (ds : List Char) : Nat :=
  ds.foldl (fun acc c => acc * 10 + (c.toNat - 48)) 0

/-- replace(/[.,]/g, empty): strip every dot and comma. -/
def stripSeps (s : List Char) : List Char :=
  s.filter (fun c => !(c == '.') && !(c == ','))

/-- parseInt(s, 10) on the strings arising here (digits after stripping):
leading digits, NaN when there are none. -/
def parseIntJS (s : List Char) : JsNum :=
  let ds := s.takeWhile Char.isDigit
  if ds.isEmpty then JsNum.nan else JsNum.num (digitsToNat ds)

/-- The decimal value ip.fp of an integer digit part and a fraction digit
part: (ip * 10 ^ k + fp) / 10 ^ k with k fraction digits, written with
mkRat so that it evaluates inside the kernel. -/
def parseFloatVal (ip fp : List Char) : ℚ :=
  mkRat (digitsToNat ip * 10 ^ fp.length + digitsToNat fp) (10 ^ fp.length)

/-- parseFloat on digits-and-dots captures: integer part, optional dot and
fraction part, anything further ignored; NaN when no digit was read. -/
def parseFloatJS (s : List Char) : JsNum :=
  let ip := s.takeWhile Char.isDigit
  match s.drop ip.length with
  | '.' :: rest2 =>
    let fp := rest2.takeWhile Char.isDigit
    if ip.isEmpty && fp.isEmpty then JsNum.nan
    else JsNum.num (parseFloatVal ip fp)
  | _ => if ip.isEmpty then JsNum.nan else JsNum.num (parseFloatVal ip [])

/-! ### The rating-result record -/

/-- RatingResult: the common result shape.  Absent JS fields are modelled
by the defaults (none and false). -/
structure RatingResult where
  found : Bool
  rating : Option JsNum := none
  ratingCount : Option JsNum := none
  beerName : Option String := none
  beerUrl : Option String := none
  source : Option String := none
  unrated : Bool := false
  error : Option String := none
  fromCache : Bool := false
deriving DecidableEq

/-- parseSearchResults fallback path (background.js lines 231-267):
scan the whole document. -/
def parseFallback (h : List Char) (originalBeerName : String) : RatingResult :=
  let fallbackCountMatch := fbCountM h
  let fallbackCount : Option JsNum :=
    fallbackCountMatch.map (fun cap => parseIntJS (stripSeps cap))
  let fallbackUrlMatch := urlM h
  if fallbackCount == some (JsNum.num 0) then
    { found := true, rating := none, ratingCount := some (JsNum.num 0),
      beerName := some originalBeerName,
      beerUrl := fallbackUrlMatch.map (fun u => "https://untappd.com" ++ u.asString),
      source := some "scrape", unrated := true }
  else
    match fbRatingMatch h with
    | some cap =>
      { found := true, rating := some (parseFloatJS cap),
        ratingCount := fallbackCount,
        beerName := some originalBeerName,
        beerUrl := fallbackUrlMatch.map (fun u => "https://untappd.com" ++ u.asString),
        source := some "scrape" }
    | none => { found := false, source := some "scrape" }

/-- parseSearchResults (background.js lines 175-272). -/
def parseSearchResults (html originalBeerName : String) : RatingResult :=
  let h := html.data
  match beerItemM h with
  | some itemHtml =>
    let ratingMatch := itemRatingMatch itemHtml
    let countMatch := itemCountMatch itemHtml
    let urlMatch := urlM itemHtml
    let nameMatch := itemNameMatch itemHtml
    let ratingCount : Option JsNum :=
      countMatch.map (fun cap => parseIntJS (stripSeps cap))
    if countMatch.isSome && (ratingCount == some (JsNum.num 0)) then
      { found := true, rating := none, ratingCount := some (JsNum.num 0),
        beerName := some (match nameMatch with
          | some n => (trimJS n).asString
          | none => originalBeerName),
        beerUrl := urlMatch.map (fun u => "https://untappd.com" ++ u.asString),
        source := some "scrape", unrated := true }
    else
      match ratingMatch with
      | some cap =>
        { found := true, rating := some (parseFloatJS cap),
          ratingCount := ratingCount,
          beerName := some (match nameMatch with
            | some n => (trimJS n).asString
            | none => originalBeerName),
          beerUrl := urlMatch.map (fun u => "https://untappd.com" ++ u.asString),
          source := some "scrape" }
      | none => parseFallback h originalBeerName
  | none => parseFallback h originalBeerName

/-! ### Cache store, environment and resolver state -/

/-- CacheEntry: the stored pair of result and write time (background.js
lines 62-65). -/
structure CacheEntry where
  data : RatingResult
  timestamp : Nat
deriving DecidableEq

/-- The content of chrome.storage.local under beerRatingsCache, as an
association list with JS-object key uniqueness maintained by cacheUpsert. -/
abbrev CacheStore := List (String × CacheEntry)

/-- JS object property read cache[key]. -/
def cacheLookup (key : String) : CacheStore → Option CacheEntry
  | [] => none
  | (k, e) :: rest => if k == key then some e else cacheLookup key rest

/-- JS delete cache[key]. -/
def cacheErase (key : String) (c : CacheStore) : CacheStore :=
  c.filter (fun kv => !(kv.1 == key))

/-- JS assignment cache[key] = e: overwrite in place or append. -/
def cacheUpsert (key : String) (e : CacheEntry) : CacheStore → CacheStore
  | [] => [(key, e)]
  | (k, e0) :: rest =>
    if k == key then (key, e) :: rest else (k, e0) :: cacheUpsert key e rest

/-- The credential pair stored under untappdApiKey. -/
structure Credential where
  clientId : String
  clientSecret : String
deriving DecidableEq

/-- Response of the structured API search endpoint: the relevant fields of
one item of data.response.beers.items. -/
structure ApiBeer where
  rating_score : ℚ
  rating_count : Int
  beer_name : String
  beer_slug : String
  bid : Nat
deriving DecidableEq

/-- Outcome of the fetch against the API endpoint. -/
inductive ApiResp where
  | ok (items : List ApiBeer)
  | httpErr (status : Nat)
  | netFail (msg : String)
deriving DecidableEq

/-- Outcome of the fetch against the public search page. -/
inductive ScrapeResp where
  | htmlOk (html : String)
  | httpFail (status : Nat)
  | netFail (msg : String)
deriving DecidableEq

/-- The external world of one resolution: the clock, whether the KV read
rejects, and the two network endpoints. -/
structure Env where
  now : Nat
  kvFail : Option String := none
  apiResp : ApiResp
  scrapeResp : ScrapeResp
deriving DecidableEq

/-- The persistent state the resolver reads and writes: the local cache
object and the sync credential slot. -/
structure St where
  cache : CacheStore
  apiKey : Option Credential
deriving DecidableEq

/-- JS truthiness of the error field: undefined and the empty string are
falsy, every other string is truthy. -/
def jsTruthyStr : Option String → Bool
  | none => false
  | some m => !(m == "")

/-! ### Cache operations of the resolver (background.js lines 40-74) -/

/-- getCachedRating (background.js lines 40-55).  The await of the KV read
can reject, which this function does not catch: the rejection propagates
to its caller. -/
def getCachedRating (env : Env) (cache : CacheStore) (brewery beerName : String) :
    Except String (Option RatingResult × CacheStore) :=
  match env.kvFail with
  | some m => Except.error m
  | none =>
    let key := generateCacheKey brewery beerName
    match cacheLookup key cache with
    | none => Except.ok (none, cache)
    | some entry =>
      if CACHE_TTL_MS < env.now - entry.timestamp then
        Except.ok (none, cacheErase key cache)
      else Except.ok (some entry.data, cache)

/-- setCachedRating (background.js lines 57-68). -/
def setCachedRating (env : Env) (cache : CacheStore) (brewery beerName : String)
    (data : RatingResult) : CacheStore :=
  cacheUpsert (generateCacheKey brewery beerName) ⟨data, env.now⟩ cache

/-- Statistics record of utils.js CacheManager. -/
structure UtilsStats where
  hits : Nat
  misses : Nat
deriving DecidableEq

/-- CacheManager.get from utils.js lines 31-62: same TTL logic as
getCachedRating but with hit and miss counters, and with a try-catch that
swallows a KV failure and reports a miss without touching anything. -/
def utilsCacheGet (env : Env) (cache : CacheStore) (stats : UtilsStats)
    (brewery beerName : String) : Option RatingResult × CacheStore × UtilsStats :=
  match env.kvFail with
  | some _ => (none, cache, stats)
  | none =>
    let key := generateCacheKey brewery beerName
    match cacheLookup key cache with
    | none => (none, cache, ⟨stats.hits, stats.misses + 1⟩)
    | some entry =>
      if CACHE_TTL_MS < env.now - entry.timestamp then
        (none, cacheErase key cache, ⟨stats.hits, stats.misses + 1⟩)
      else (some entry.data, cache, ⟨stats.hits + 1, stats.misses⟩)

/-! ### Source clients and the resolver (background.js lines 79-170) -/

/-- fetchViaScrape (background.js lines 147-170): a transport or HTTP
failure yields the error result directly; otherwise the body goes to the
text extractor. -/
def fetchViaScrape (env : Env) (beerName brewery : String) : RatingResult :=
  match env.scrapeResp with
  | ScrapeResp.htmlOk html => parseSearchResults html beerName
  | ScrapeResp.httpFail status =>
    { found := false, error := some ("Scrape error: " ++ toString status),
      source := some "scrape" }
  | ScrapeResp.netFail msg =>
    { found := false, error := some msg, source := some "scrape" }

/-- fetchViaAPI (background.js lines 108-142): on HTTP 401 the credential
is removed and the scrape client is invoked; any other HTTP or transport
failure falls through to the scrape client with the credential kept. -/
def fetchViaAPI (env : Env) (st : St) (beerName brewery : String) :
    RatingResult × St :=
  match env.apiResp with
  | ApiResp.ok items =>
    match items with
    | [] => ({ found := false, source := some "api" }, st)
    | beer :: _ =>
      ({ found := true, rating := some (JsNum.num beer.rating_score),
         ratingCount := some (JsNum.num (beer.rating_count : ℚ)),
         beerName := some beer.beer_name,
         beerUrl := some ("https://untappd.com/b/" ++ beer.beer_slug ++ "/" ++
           toString beer.bid),
         source := some "api" }, st)
  | ApiResp.httpErr status =>
    if status == 401 then
      (fetchViaScrape env beerName brewery, { st with apiKey := none })
    else (fetchViaScrape env beerName brewery, st)
  | ApiResp.netFail _ => (fetchViaScrape env beerName brewery, st)

/-- fetchBeerRating (background.js lines 79-103): cache first, then the
client selected by credential presence, then the conditional cache write.
A KV rejection in the cache read propagates out as an error. -/
def fetchBeerRating (env : Env) (st : St) (beerName brewery : String) :
    Except String (RatingResult × St) :=
  match getCachedRating env st.cache brewery beerName with
  | Except.error m => Except.error m
  | Except.ok (some cached, cache1) =>
    Except.ok ({ cached with fromCache := true }, { st with cache := cache1 })
  | Except.ok (none, cache1) =>
    let st1 : St := { st with cache := cache1 }
    let rs : RatingResult × St :=
      match st1.apiKey with
      | some _ => fetchViaAPI env st1 beerName brewery
      | none => (fetchViaScrape env beerName brewery, st1)
    if jsTruthyStr rs.1.error then Except.ok (rs.1, rs.2)
    else
      Except.ok (rs.1,
        { rs.2 with cache := setCachedRating env rs.2.cache brewery beerName rs.1 })

/-! ### Rate limiter and request queue (background.js lines 21-35, 277-301) -/

/-- The filter inside canRequest (background.js line 23): keep timestamps
younger than the window. -/
def pruneTs (now : Nat) (ts : List Nat) : List Nat :=
  ts.filter (fun time => now - time < RATE_LIMIT_WINDOW_MS)

/-- canRequest (background.js lines 21-25). -/
def canRequest (now : Nat) (ts : List Nat) : Bool :=
  (pruneTs now ts).length < RATE_LIMIT_REQUESTS

/-- Math.min over a nonempty list (empty gives a dummy 0; the code only
takes the minimum when at least RATE_LIMIT_REQUESTS timestamps remain). -/
def minList : List Nat → Nat
  | [] => 0
  | t :: ts => ts.foldl Nat.min t

/-- getWaitTime (background.js lines 30-35); the Math.max with 0 is the
truncation of natural subtraction. -/
def getWaitTime (now : Nat) (ts : List Nat) : Nat :=
  let pruned := pruneTs now ts
  if pruned.length < RATE_LIMIT_REQUESTS then 0
  else RATE_LIMIT_WINDOW_MS - (now - minList pruned)

/-- Observable outcome of one iteration of the processQueue drain loop. -/
structure JobOutcome where
  response : RatingResult
  st : St
  timestamps : List Nat
  dispatchTime : Nat
deriving DecidableEq

/-- One iteration of processQueue (background.js lines 282-298) on the job
at the head of the queue: compute the wait, sleep, record the dispatch
timestamp onto the pruned list, run fetchBeerRating at the dispatch time,
and convert a rejection into the catch-branch response. -/
def processJob (env : Env) (st : St) (ts : List Nat) (beerName brewery : String) :
    JobOutcome :=
  let w := getWaitTime env.now ts
  let t := env.now + w
  let ts1 := pruneTs env.now ts ++ [t]
  match fetchBeerRating { env with now := t } st beerName brewery with
  | Except.ok (r, st2) => ⟨r, st2, ts1, t⟩
  | Except.error m => ⟨{ found := false, error := some m }, st, ts1, t⟩

/-- The dispatch times of the processQueue drain loop (background.js lines
282-298) viewed through the rate limiter alone: the clock starts at now
with recorded timestamps ts, each queued job takes the given duration
between its dispatch and the next admission check.  Produces the time at
which each job is dispatched (the value pushed onto requestTimestamps). -/
def drainLoop : Nat → List Nat → List Nat → List Nat
  | _, _, [] => []
  | now, ts, d :: ds =>
    (now + getWaitTime now ts) ::
      drainLoop (now + getWaitTime now ts + d)
        (pruneTs now ts ++ [now + getWaitTime now ts]) ds

/-- The invariant of claim C9 on rating results. -/
def resultInv (r : RatingResult) : Prop :=
  (r.unrated = true → r.rating = none ∧ r.ratingCount = some (JsNum.num 0)) ∧
  (r.found = false → r.rating = none)

/-- The invariant of claim C9 on every stored cache entry. -/
def cacheInv (c : CacheStore) : Prop :=
  ∀ kv ∈ c, resultInv kv.2.data

/-! ### Concrete instances used by counterexamples and witnesses -/

/-- A sample cached rating result. -/
def sampleHit : RatingResult :=
  { found := true, rating := some (JsNum.num 4), ratingCount := some (JsNum.num 7),
    beerName := some "B", source := some "scrape" }

/-- Environment of the C1 counterexample: time 1000, healthy KV store. -/
def c1env : Env :=
  { now := 1000, apiResp := ApiResp.ok [], scrapeResp := ScrapeResp.netFail "x" }

/-- State of the C1 counterexample: a fresh cache entry for the key of
brewery b and beer n, no credential. -/
def c1st : St :=
  { cache := [("b_n", ⟨sampleHit, 1000⟩)], apiKey := none }

/-- Environment of the C6 counterexample: the scrape transport fails with
an empty message. -/
def c6env : Env :=
  { now := 1000, apiResp := ApiResp.ok [], scrapeResp := ScrapeResp.netFail "" }

/-- The result the C6 counterexample produces: an error result whose
message is the empty string. -/
def c6result : RatingResult :=
  { found := false, error := some "", source := some "scrape" }

/-- A search page on which the extractor finds a rating. -/
def goodHtml : String :=
  "<div class=\"beer-item\"><b class=\"num\">3.8</b><b class=\"raters\">(12)</b></div></div>"

/-- Environment of the C8 counterexample: the KV read rejects although the
scrape endpoint would answer with a parseable page. -/
def c8env : Env :=
  { now := 0, kvFail := some "boom", apiResp := ApiResp.ok [],
    scrapeResp := ScrapeResp.htmlOk goodHtml }

/-- Environment of the C5 witness: credential present, API answers 401,
scrape endpoint healthy. -/
def c5env : Env :=
  { now := 0, apiResp := ApiResp.httpErr 401, scrapeResp := ScrapeResp.htmlOk goodHtml }

/-- State of the C5 witness: empty cache, credential configured. -/
def c5st : St := { cache := [], apiKey := some ⟨"id", "secret"⟩ }

/-- Environment of the C4 witness: the clock reads 8 days. -/
def c4env : Env :=
  { now := 8 * 24 * 60 * 60 * 1000, apiResp := ApiResp.ok [],
    scrapeResp := ScrapeResp.netFail "x" }

/-- Beer-item page of the C7 counterexample: the num-class pattern matches
the string 7.5, which is outside the interval [0, 4]. -/
def c7html : String :=
  "<div class=\"beer-item\"><b class=\"num\">7.5</b><a href=\"/b/x/1\">N</a></div></div>"

/-- Beer-item page of the C3 witness: the raters count is 0 while a
rating number 3.75 also matches. -/
def c3html : String :=
  "<div class=\"beer-item\"><b class=\"num\">3.75</b><b class=\"raters\">(0)</b></div></div>"

/-! ### General lemmas -/

theorem natMin_eq_or (a b : Nat) : Nat.min a b = a ∨ Nat.min a b = b := by
  rcases Nat.le_total a b with h | h
  · left; exact Nat.min_eq_left h
  · right; exact Nat.min_eq_right h

theorem foldl_min_mem (xs : List Nat) : ∀ a : Nat, xs.foldl Nat.min a ∈ a :: xs := by
  induction xs with
  | nil => intro a; simp
  | cons x xs ih =>
    intro a
    have h := ih (Nat.min a x)
    simp only [List.foldl_cons]
    rcases List.mem_cons.mp h with h1 | h1
    · rcases natMin_eq_or a x with h2 | h2
      · rw [h1, h2]; exact List.mem_cons_self _ _
      · rw [h1, h2]; exact List.mem_cons_of_mem _ (List.mem_cons_self _ _)
    · exact List.mem_cons_of_mem _ (List.mem_cons_of_mem _ h1)

theorem minList_mem {l : List Nat} (h : l ≠ []) : minList l ∈ l := by
  cases l with
  | nil => exact absurd rfl h
  | cons t ts => exact foldl_min_mem ts t

theorem exists_not_of_filter_lt {l : List Nat} {p : Nat → Bool}
    (h : (l.filter p).length < l.length) : ∃ x ∈ l, ¬ p x = true := by
  by_contra hc
  push_neg at hc
  have he : l.filter p = l := List.filter_eq_self.mpr hc
  rw [he] at h
  exact Nat.lt_irrefl _ h

theorem pruneTs_pruneTs {p q : Nat} (hpq : p ≤ q) (l : List Nat) :
    pruneTs q (pruneTs p l) = pruneTs q l := by
  induction l with
  | nil => rfl
  | cons c cs ih =>
    by_cases h1 : q - c < RATE_LIMIT_WINDOW_MS
    · have h2 : p - c < RATE_LIMIT_WINDOW_MS := by omega
      simp only [pruneTs, List.filter_cons] at ih ⊢
      simp [h1, h2, ih]
    · by_cases h2 : p - c < RATE_LIMIT_WINDOW_MS
      · simp only [pruneTs, List.filter_cons] at ih ⊢
        simp [h1, h2, ih]
      · simp only [pruneTs, List.filter_cons] at ih ⊢
        simp [h1, h2, ih]

theorem mem_pruneTs {now x : Nat} {l : List Nat} (h : x ∈ pruneTs now l) :
    x ∈ l ∧ now - x < RATE_LIMIT_WINDOW_MS := by
  have h2 := List.mem_filter.mp h
  refine ⟨h2.1, ?_⟩
  simpa using h2.2

/-- Main induction for the rate-limiter window bound: if the recorded list
is a pruning of the dispatch history, every history entry lies between t0
and the clock, and 11 or more dispatches happen in total, then the 11th
dispatch time is at least t0 plus the window. -/
theorem drainLoop_ge :
    ∀ (ds : List Nat) (now : Nat) (ts hist : List Nat) (t0 p : Nat),
      p ≤ now → t0 ≤ now →
      ts = pruneTs p hist →
      (∀ x ∈ hist, t0 ≤ x ∧ x ≤ now) →
      11 ≤ hist.length + ds.length → hist.length ≤ 10 →
      t0 + RATE_LIMIT_WINDOW_MS ≤ (drainLoop now ts ds).getD (10 - hist.length) 0 := by
  intro ds
  induction ds with
  | nil =>
    intro now ts hist t0 p _ _ _ _ h5 h6
    simp only [List.length_nil, Nat.add_zero] at h5
    omega
  | cons d ds ih =>
    intro now ts hist t0 p hp ht0 hts hmem h5 h6
    have hpruned : pruneTs now ts = pruneTs now hist := by
      rw [hts]; exact pruneTs_pruneTs hp hist
    by_cases hl : hist.length = 10
    · have hidx : 10 - hist.length = 0 := by omega
      rw [hidx]
      simp only [drainLoop, List.getD_cons_zero, getWaitTime]
      split
      · rename_i hfull
        rw [hpruned] at hfull
        have hR : RATE_LIMIT_REQUESTS = 10 := rfl
        have hlt : ((pruneTs now hist).length : Nat) < hist.length := by omega
        obtain ⟨x, hx, hnx⟩ := exists_not_of_filter_lt hlt
        have hb := hmem x hx
        simp only [decide_eq_true_eq] at hnx
        omega
      · rename_i hfull
        have hne : pruneTs now ts ≠ [] := by
          intro he
          rw [he] at hfull
          have hR : RATE_LIMIT_REQUESTS = 10 := rfl
          simp only [List.length_nil] at hfull
          omega
        have hm : minList (pruneTs now ts) ∈ pruneTs now ts := minList_mem hne
        rw [hpruned] at hm
        obtain ⟨hmh, hlt⟩ := mem_pruneTs hm
        have hb := hmem _ hmh
        rw [hpruned]
        omega
    · have hlt10 : hist.length < 10 := by omega
      obtain ⟨k, hk⟩ : ∃ k, 10 - hist.length = k + 1 := ⟨10 - hist.length - 1, by omega⟩
      rw [hk]
      simp only [drainLoop, List.getD_cons_succ]
      have hwt : now ≤ now + getWaitTime now ts := Nat.le_add_right now _
      have happ : pruneTs now ts ++ [now + getWaitTime now ts] =
          pruneTs now (hist ++ [now + getWaitTime now ts]) := by
        rw [hpruned]
        unfold pruneTs
        rw [List.filter_append]
        congr 1
        have hz : now - (now + getWaitTime now ts) = 0 := by omega
        simp [hz, RATE_LIMIT_WINDOW_MS]
      have hres := ih (now + getWaitTime now ts + d)
        (pruneTs now ts ++ [now + getWaitTime now ts])
        (hist ++ [now + getWaitTime now ts]) t0 now
        (by omega) (by omega) (by rw [happ])
        (by
          intro x hx
          rcases List.mem_append.mp hx with hx1 | hx1
          · exact ⟨(hmem x hx1).1, by have := (hmem x hx1).2; omega⟩
          · simp only [List.mem_singleton] at hx1
            subst hx1
            exact ⟨by omega, by omega⟩)
        (by simp only [List.length_append, List.length_singleton,
              List.length_cons] at h5 ⊢; omega)
        (by simp only [List.length_append, List.length_singleton]; omega)
      have hidx2 : 10 - (hist ++ [now + getWaitTime now ts]).length = k := by
        simp only [List.length_append, List.length_singleton]
        omega
      rw [hidx2] at hres
      exact hres

/-! ### Claim C2 -/

/-- C2: with an empty timestamp list the drain loop dispatches the first
10 jobs immediately (all at the start time t0 when they complete
instantly) and dispatches the 11th exactly at the oldest recorded
timestamp plus the 60000 ms window; moreover, for arbitrary job durations
the 11th dispatch never happens before t0 + 60000. -/
theorem claim_C2_window_bound :
    (∀ t0 : Nat, drainLoop t0 [] (List.replicate 11 0) =
      List.replicate 10 t0 ++ [t0 + RATE_LIMIT_WINDOW_MS]) ∧
    (∀ (t0 : Nat) (ds : List Nat), ds.length = 11 →
      t0 + RATE_LIMIT_WINDOW_MS ≤ (drainLoop t0 [] ds).getD 10 0) := by
  constructor
  · intro t0
    simp [drainLoop, getWaitTime, pruneTs, minList, RATE_LIMIT_WINDOW_MS,
      RATE_LIMIT_REQUESTS, List.replicate, Nat.sub_self]
  · intro t0 ds hlen
    cases ds with
    | nil => simp at hlen
    | cons d ds2 =>
      have hstep : drainLoop t0 [] (d :: ds2) = t0 :: drainLoop (t0 + d) [t0] ds2 := by
        simp [drainLoop, getWaitTime, pruneTs, RATE_LIMIT_REQUESTS]
      rw [hstep]
      have h10 : (10 : Nat) = 9 + 1 := rfl
      rw [h10, List.getD_cons_succ]
      have hres := drainLoop_ge ds2 (t0 + d) [t0] [t0] t0 t0
        (by omega) (by omega)
        (by simp [pruneTs, RATE_LIMIT_WINDOW_MS, Nat.sub_self])
        (by intro x hx; simp only [List.mem_singleton] at hx; omega)
        (by simp only [List.length_singleton, List.length_cons] at hlen ⊢; omega)
        (by simp)
      simpa using hres

/-- C2 witness: the second part of the window-bound theorem applied at
start time 5 with 11 jobs of duration 3 each. -/
theorem claim_C2_window_bound_witness :
    (List.replicate 11 (3 : Nat)).length = 11 ∧
    5 + RATE_LIMIT_WINDOW_MS ≤ (drainLoop 5 [] (List.replicate 11 3)).getD 10 0 :=
  ⟨by simp, claim_C2_window_bound.2 5 (List.replicate 11 3) (by simp)⟩

/-! ### Invariant and tagging lemmas for the extractor and the clients -/

theorem parseFallback_inv (h : List Char) (n : String) :
    resultInv (parseFallback h n) := by
  unfold parseFallback
  dsimp only
  split
  · simp [resultInv]
  · split <;> simp [resultInv]

theorem parseSearchResults_inv (html n : String) :
    resultInv (parseSearchResults html n) := by
  unfold parseSearchResults
  dsimp only
  split
  · split
    · simp [resultInv]
    · split
      · simp [resultInv]
      · exact parseFallback_inv _ _
  · exact parseFallback_inv _ _

theorem parseFallback_source (h : List Char) (n : String) :
    (parseFallback h n).source = some "scrape" := by
  unfold parseFallback
  dsimp only
  split
  · rfl
  · split <;> rfl

theorem parseSearchResults_source (html n : String) :
    (parseSearchResults html n).source = some "scrape" := by
  unfold parseSearchResults
  dsimp only
  split
  · split
    · rfl
    · split
      · rfl
      · exact parseFallback_source _ _
  · exact parseFallback_source _ _

theorem fetchViaScrape_inv (env : Env) (n b : String) :
    resultInv (fetchViaScrape env n b) := by
  unfold fetchViaScrape
  split
  · exact parseSearchResults_inv _ _
  · simp [resultInv]
  · simp [resultInv]

theorem fetchViaScrape_source (env : Env) (n b : String) :
    (fetchViaScrape env n b).source = some "scrape" := by
  unfold fetchViaScrape
  split
  · exact parseSearchResults_source _ _
  · rfl
  · rfl

theorem fetchViaAPI_inv (env : Env) (st : St) (n b : String) :
    resultInv (fetchViaAPI env st n b).1 := by
  unfold fetchViaAPI
  split
  · split
    · simp [resultInv]
    · simp [resultInv]
  · split
    · exact fetchViaScrape_inv env n b
    · exact fetchViaScrape_inv env n b
  · exact fetchViaScrape_inv env n b

theorem fetchViaAPI_cache (env : Env) (st : St) (n b : String) :
    (fetchViaAPI env st n b).2.cache = st.cache := by
  unfold fetchViaAPI
  split
  · split <;> rfl
  · split <;> rfl
  · rfl

theorem cacheLookup_mem {key : String} {c : CacheStore} {e : CacheEntry}
    (h : cacheLookup key c = some e) : ∃ k, (k, e) ∈ c := by
  induction c with
  | nil => simp [cacheLookup] at h
  | cons kv rest ih =>
    obtain ⟨k0, e0⟩ := kv
    simp only [cacheLookup] at h
    split at h
    · injection h with he
      exact ⟨k0, by rw [he]; exact List.mem_cons_self _ _⟩
    · obtain ⟨k, hk⟩ := ih h
      exact ⟨k, List.mem_cons_of_mem _ hk⟩

theorem cacheInv_erase {key : String} {c : CacheStore} (hc : cacheInv c) :
    cacheInv (cacheErase key c) := by
  intro kv hkv
  exact hc kv (List.mem_filter.mp hkv).1

theorem cacheInv_upsert {key : String} {e : CacheEntry} {c : CacheStore}
    (he : resultInv e.data) : cacheInv c → cacheInv (cacheUpsert key e c) := by
  induction c with
  | nil =>
    intro _ kv hkv
    simp only [cacheUpsert, List.mem_singleton] at hkv
    rw [hkv]
    exact he
  | cons kv0 rest ih =>
    intro hc kv hkv
    obtain ⟨k0, e0⟩ := kv0
    simp only [cacheUpsert] at hkv
    split at hkv
    · rcases List.mem_cons.mp hkv with h1 | h1
      · rw [h1]; exact he
      · exact hc _ (List.mem_cons_of_mem _ h1)
    · rcases List.mem_cons.mp hkv with h1 | h1
      · rw [h1]; exact hc _ (List.mem_cons_self _ _)
      · exact ih (fun kv2 hkv2 => hc kv2 (List.mem_cons_of_mem _ hkv2)) kv h1

theorem resultInv_fromCache {r : RatingResult} (h : resultInv r) :
    resultInv { r with fromCache := true } := by
  cases r
  simpa [resultInv] using h

theorem getCachedRating_ok {env : Env} {cache : CacheStore} {brewery beerName : String}
    {res : Option RatingResult} {cache2 : CacheStore}
    (hc : cacheInv cache)
    (h : getCachedRating env cache brewery beerName = Except.ok (res, cache2)) :
    cacheInv cache2 ∧ ∀ r, res = some r → resultInv r := by
  unfold getCachedRating at h
  cases hkv : env.kvFail with
  | some m => rw [hkv] at h; simp at h
  | none =>
    rw [hkv] at h
    dsimp only at h
    split at h
    · simp only [Except.ok.injEq, Prod.mk.injEq] at h
      obtain ⟨h1, h2⟩ := h
      subst h1
      subst h2
      exact ⟨hc, fun r hr => by cases hr⟩
    · rename_i entry hl
      split at h
      · simp only [Except.ok.injEq, Prod.mk.injEq] at h
        obtain ⟨h1, h2⟩ := h
        subst h1
        subst h2
        exact ⟨cacheInv_erase hc, fun r hr => by cases hr⟩
      · simp only [Except.ok.injEq, Prod.mk.injEq] at h
        obtain ⟨h1, h2⟩ := h
        subst h1
        subst h2
        refine ⟨hc, ?_⟩
        intro r hr
        injection hr with hr2
        rw [← hr2]
        obtain ⟨k, hk⟩ := cacheLookup_mem hl
        exact hc _ hk

theorem fetchBeerRating_inv {env : Env} {st : St} {n b : String}
    (hc : cacheInv st.cache) :
    ∀ {r : RatingResult} {st2 : St},
      fetchBeerRating env st n b = Except.ok (r, st2) →
      resultInv r ∧ cacheInv st2.cache := by
  intro r st2 h
  unfold fetchBeerRating at h
  cases hg : getCachedRating env st.cache b n with
  | error m => rw [hg] at h; simp at h
  | ok pr =>
    obtain ⟨res, cache1⟩ := pr
    obtain ⟨hc1, hres⟩ := getCachedRating_ok hc hg
    rw [hg] at h
    cases res with
    | some cached =>
      simp only [Except.ok.injEq, Prod.mk.injEq] at h
      obtain ⟨h1, h2⟩ := h
      subst h1
      subst h2
      exact ⟨resultInv_fromCache (hres cached rfl), hc1⟩
    | none =>
      dsimp only at h
      cases hak : st.apiKey with
      | some key =>
        rw [hak] at h
        dsimp only at h
        split at h <;>
          (simp only [Except.ok.injEq, Prod.mk.injEq] at h
           obtain ⟨h1, h2⟩ := h
           subst h1
           subst h2)
        · refine ⟨fetchViaAPI_inv env ⟨cache1, some key⟩ n b, ?_⟩
          have hcc := fetchViaAPI_cache env ⟨cache1, some key⟩ n b
          rw [hcc]
          exact hc1
        · refine ⟨fetchViaAPI_inv env ⟨cache1, some key⟩ n b, ?_⟩
          show cacheInv (setCachedRating env _ b n _)
          unfold setCachedRating
          apply cacheInv_upsert
          · exact fetchViaAPI_inv env ⟨cache1, some key⟩ n b
          · have hcc := fetchViaAPI_cache env ⟨cache1, some key⟩ n b
            rw [hcc]
            exact hc1
      | none =>
        rw [hak] at h
        dsimp only at h
        split at h <;>
          (simp only [Except.ok.injEq, Prod.mk.injEq] at h
           obtain ⟨h1, h2⟩ := h
           subst h1
           subst h2)
        · exact ⟨fetchViaScrape_inv env n b, hc1⟩
        · refine ⟨fetchViaScrape_inv env n b, ?_⟩
          show cacheInv (setCachedRating env _ b n _)
          unfold setCachedRating
          apply cacheInv_upsert
          · exact fetchViaScrape_inv env n b
          · exact hc1

/-- A KV-read rejection propagates out of fetchBeerRating unmodified. -/
theorem fetchBeerRating_kvFail {env : Env} {st : St} {n b m : String}
    (hkv : env.kvFail = some m) :
    fetchBeerRating env st n b = Except.error m := by
  unfold fetchBeerRating getCachedRating
  rw [hkv]

/-! ### Claim C1 -/

/-- C1 counterexample: a call whose cache entry is present and fresh does
return the stored result with fromCache true, but the rate limiter state
is NOT left unchanged: the dequeued job records a timestamp even though it
is a cache hit, so the empty timestamp list becomes nonempty. -/
theorem claim_C1_counterexample :
    (processJob c1env c1st [] "n" "b").response = { sampleHit with fromCache := true } ∧
    (processJob c1env c1st [] "n" "b").timestamps = [1000] ∧
    [1000] ≠ ([] : List Nat) := by
  refine ⟨by decide, by decide, by decide⟩

/-- C1 amended: on a present and fresh cache entry the stored result is
returned with fromCache set to true and the cache and credential are left
unchanged, but the rate limiter is not bypassed: the job is dequeued
through the queue and its dispatch timestamp is recorded onto the pruned
timestamp list, consuming one unit of the 10-per-window budget. -/
theorem claim_C1_hit_still_charged :
    ∀ (env : Env) (st : St) (ts : List Nat) (n b : String) (entry : CacheEntry),
      env.kvFail = none →
      cacheLookup (generateCacheKey b n) st.cache = some entry →
      env.now + getWaitTime env.now ts - entry.timestamp ≤ CACHE_TTL_MS →
      processJob env st ts n b =
        ⟨{ entry.data with fromCache := true }, st,
          pruneTs env.now ts ++ [env.now + getWaitTime env.now ts],
          env.now + getWaitTime env.now ts⟩ := by
  intro env st ts n b entry hkv hl hfresh
  unfold processJob
  dsimp only
  have hfetch : fetchBeerRating { env with now := env.now + getWaitTime env.now ts } st n b =
      Except.ok ({ entry.data with fromCache := true }, st) := by
    unfold fetchBeerRating getCachedRating
    dsimp only
    rw [hkv]
    dsimp only
    rw [hl]
    dsimp only
    rw [if_neg (by omega)]
  rw [hfetch]

/-- C1 witness: the amended theorem applied to the concrete hit state. -/
theorem claim_C1_hit_still_charged_witness :
    processJob c1env c1st [] "n" "b" =
      ⟨{ sampleHit with fromCache := true }, c1st, [1000], 1000⟩ := by
  rw [claim_C1_hit_still_charged c1env c1st [] "n" "b" ⟨sampleHit, 1000⟩ rfl (by decide)
    (by decide)]
  decide

/-! ### Claim C4 -/

/-- C4: a stored entry older than the 7-day TTL is reported absent by the
cache read and is deleted from the store by that same read; an entry whose
age is at most the TTL is returned as a hit with the store unchanged. -/
theorem claim_C4_ttl_expiry :
    ∀ (env : Env) (cache : CacheStore) (b n : String) (entry : CacheEntry),
      env.kvFail = none →
      cacheLookup (generateCacheKey b n) cache = some entry →
      (CACHE_TTL_MS < env.now - entry.timestamp →
        getCachedRating env cache b n =
          Except.ok (none, cacheErase (generateCacheKey b n) cache)) ∧
      (env.now - entry.timestamp ≤ CACHE_TTL_MS →
        getCachedRating env cache b n = Except.ok (some entry.data, cache)) := by
  intro env cache b n entry hkv hl
  constructor <;> intro hage <;>
    (unfold getCachedRating
     rw [hkv]
     dsimp only
     rw [hl]
     dsimp only)
  · rw [if_pos hage]
  · rw [if_neg (by omega)]

/-- C4 witness: an entry with timestamp 0 read at 8 days is absent and its
deletion empties the store. -/
theorem claim_C4_ttl_expiry_witness :
    getCachedRating c4env [("b_n", ⟨sampleHit, 0⟩)] "b" "n" = Except.ok (none, []) := by
  rw [(claim_C4_ttl_expiry c4env [("b_n", ⟨sampleHit, 0⟩)] "b" "n" ⟨sampleHit, 0⟩ rfl
    (by decide)).1 (by decide)]
  rfl

/-! ### Claim C8 -/

/-- C8 counterexample: with a rejecting KV store the resolve path does not
treat the failure as a miss: no live fetch happens (the scrape endpoint
would have produced a found result) and the failure message is surfaced in
the response returned by the queue worker. -/
theorem claim_C8_counterexample :
    (processJob c8env ⟨[], none⟩ [] "n" "b").response =
      { found := false, error := some "boom" } ∧
    (fetchViaScrape c8env "n" "b").found = true := by
  refine ⟨by decide, by decide⟩

/-- C8 amended: a KV failure during the cache read is not swallowed by the
resolver: fetchBeerRating propagates the rejection, so the queue worker
catch converts it into a found-false response carrying the error message
and no live fetch happens, leaving the state unchanged.  Only the unused
utils.js CacheManager.get swallows such a failure as a plain miss. -/
theorem claim_C8_kv_failure_not_swallowed :
    (∀ (env : Env) (st : St) (n b m : String),
      env.kvFail = some m →
      fetchBeerRating env st n b = Except.error m) ∧
    (∀ (env : Env) (st : St) (ts : List Nat) (n b m : String),
      env.kvFail = some m →
      (processJob env st ts n b).response = { found := false, error := some m } ∧
      (processJob env st ts n b).st = st) ∧
    (∀ (env : Env) (cache : CacheStore) (stats : UtilsStats) (b n m : String),
      env.kvFail = some m →
      utilsCacheGet env cache stats b n = (none, cache, stats)) := by
  refine ⟨fun env st n b m hkv => fetchBeerRating_kvFail hkv, ?_, ?_⟩
  · intro env st ts n b m hkv
    unfold processJob
    dsimp only
    rw [fetchBeerRating_kvFail
      (show ({ env with now := env.now + getWaitTime env.now ts } : Env).kvFail = some m
        from hkv)]
    exact ⟨rfl, rfl⟩
  · intro env cache stats b n m hkv
    unfold utilsCacheGet
    rw [hkv]

/-- C8 witness: the amended theorem applied to the rejecting environment. -/
theorem claim_C8_kv_failure_not_swallowed_witness :
    fetchBeerRating c8env ⟨[], none⟩ "n" "b" = Except.error "boom" ∧
    utilsCacheGet c8env [] ⟨0, 0⟩ "b" "n" = (none, [], ⟨0, 0⟩) :=
  ⟨claim_C8_kv_failure_not_swallowed.1 c8env ⟨[], none⟩ "n" "b" "boom" rfl,
   claim_C8_kv_failure_not_swallowed.2.2 c8env [] ⟨0, 0⟩ "b" "n" "boom" rfl⟩

/-! ### Claim C9 -/

/-- C9: every rating result produced by a pipeline operation — text
extraction, scrape fetch, API fetch, and a full queue step including cache
read-back — satisfies the invariant that unrated implies a null rating and
a zero rating count, and that not-found implies a null rating; a queue
step also keeps every stored cache entry satisfying it. -/
theorem claim_C9_result_invariant :
    (∀ html n, resultInv (parseSearchResults html n)) ∧
    (∀ env n b, resultInv (fetchViaScrape env n b)) ∧
    (∀ env st n b, resultInv (fetchViaAPI env st n b).1) ∧
    (∀ env st ts n b, cacheInv st.cache →
      resultInv (processJob env st ts n b).response ∧
      cacheInv (processJob env st ts n b).st.cache) := by
  refine ⟨parseSearchResults_inv, fetchViaScrape_inv, fetchViaAPI_inv, ?_⟩
  intro env st ts n b hc
  unfold processJob
  dsimp only
  split
  · rename_i r st2 hf
    exact fetchBeerRating_inv hc hf
  · exact ⟨by simp [resultInv], hc⟩

/-- C9 witness: the queue-step part applied to an empty cache and a
failing scrape environment. -/
theorem claim_C9_result_invariant_witness :
    resultInv (processJob ⟨0, none, ApiResp.ok [], ScrapeResp.netFail "z"⟩
      ⟨[], none⟩ [] "n" "b").response ∧
    cacheInv (processJob ⟨0, none, ApiResp.ok [], ScrapeResp.netFail "z"⟩
      ⟨[], none⟩ [] "n" "b").st.cache :=
  claim_C9_result_invariant.2.2.2 ⟨0, none, ApiResp.ok [], ScrapeResp.netFail "z"⟩
    ⟨[], none⟩ [] "n" "b" (by intro kv hkv; cases hkv)

/-! ### Claim C10 -/

/-- C10: the cache key codec is not injective across the brewery and
beer-name pair: the distinct queries (a b, c) and (a, b c) produce the
same key, and an entry stored under the first is found by a lookup under
the second. -/
theorem claim_C10_key_not_injective :
    generateCacheKey "a b" "c" = generateCacheKey "a" "b c" ∧
    ("a b", "c") ≠ (("a", "b c") : String × String) ∧
    cacheLookup (generateCacheKey "a" "b c")
      (setCachedRating ⟨77, none, ApiResp.ok [], ScrapeResp.netFail "x"⟩ [] "a b" "c"
        sampleHit) = some ⟨sampleHit, 77⟩ := by
  refine ⟨by decide, by decide, by decide⟩

/-! ### Claim C3 -/

/-- C3: whenever the beer-item block is located and a rating-count pattern
matches inside it with a value that parses to exactly 0, the extractor
reports found true, unrated true, a null rating and a zero rating count —
with no assumption on whether a rating-number pattern also matches in the
same block. -/
theorem claim_C3_zero_count_precedence :
    ∀ (html name : String) (item cap : List Char),
      beerItemM html.data = some item →
      itemCountMatch item = some cap →
      parseIntJS (stripSeps cap) = JsNum.num 0 →
      (parseSearchResults html name).found = true ∧
      (parseSearchResults html name).unrated = true ∧
      (parseSearchResults html name).rating = none ∧
      (parseSearchResults html name).ratingCount = some (JsNum.num 0) := by
  intro html name item cap hitem hcount hzero
  unfold parseSearchResults
  dsimp only
  rw [hitem]
  dsimp only
  rw [hcount]
  simp [hzero]

/-- C3 witness: a block with a rating number 3.75 and a raters count (0)
is reported unrated. -/
theorem claim_C3_zero_count_precedence_witness :
    (parseSearchResults c3html "X").found = true ∧
    (parseSearchResults c3html "X").unrated = true ∧
    (parseSearchResults c3html "X").rating = none ∧
    (parseSearchResults c3html "X").ratingCount = some (JsNum.num 0) :=
  claim_C3_zero_count_precedence c3html "X"
    ("<b class=\"num\">3.75</b><b class=\"raters\">(0)</b>".data) ("0".data)
    (by decide) (by decide) (by decide)

/-! ### Claim C7 -/

theorem parseFloatVal_nonneg (ip fp : List Char) : 0 ≤ parseFloatVal ip fp := by
  unfold parseFloatVal
  apply Rat.mkRat_nonneg
  positivity

theorem parseFloatJS_cases (s : List Char) :
    parseFloatJS s = JsNum.nan ∨
    ∃ ip fp, parseFloatJS s = JsNum.num (parseFloatVal ip fp) := by
  unfold parseFloatJS
  dsimp only
  split
  · split
    · exact Or.inl rfl
    · exact Or.inr ⟨_, _, rfl⟩
  · split
    · exact Or.inl rfl
    · exact Or.inr ⟨_, _, rfl⟩

theorem parseFloatJS_nonneg (s : List Char) :
    ∀ q : ℚ, parseFloatJS s = JsNum.num q → 0 ≤ q := by
  intro q h
  rcases parseFloatJS_cases s with hc | ⟨ip, fp, hc⟩
  · rw [hc] at h; cases h
  · rw [hc] at h
    injection h with h2
    rw [← h2]
    exact parseFloatVal_nonneg ip fp

theorem parseFallback_rating_nonneg (h : List Char) (n : String) :
    ∀ q : ℚ, (parseFallback h n).rating = some (JsNum.num q) → 0 ≤ q := by
  intro q hq
  unfold parseFallback at hq
  dsimp only at hq
  split at hq
  · simp at hq
  · split at hq
    · dsimp only at hq
      injection hq with h2
      exact parseFloatJS_nonneg _ q h2
    · simp at hq

/-- C7 counterexample: inside the located beer-item block the num-class
rating pattern captures any run of digits and dots, so the extractor
returns the rating 7.5, which lies outside the interval [0, 4] and was not
matched with 1 or 2 fraction digits against a [0-4] lead. -/
theorem claim_C7_counterexample :
    (parseSearchResults c7html "X").rating = some (JsNum.num (mkRat 15 2)) ∧
    ¬ (mkRat 15 2 ≤ (4 : ℚ)) := by
  constructor
  · decide
  · rw [Rat.mkRat_eq_div]
    norm_num

/-- C7 amended: an extracted non-null, non-NaN rating is always the value
of a digits-and-dots capture, hence nonnegative, but it is not guaranteed
to lie in [0, 4]: only the third block pattern and the two whole-document
fallback patterns restrict the lead digit to [0-4] with 1 or 2 fraction
digits, while the num-class and rating patterns accept any [0-9.]+ run. -/
theorem claim_C7_rating_nonneg :
    ∀ (html name : String) (q : ℚ),
      (parseSearchResults html name).rating = some (JsNum.num q) → 0 ≤ q := by
  intro html name q hq
  unfold parseSearchResults at hq
  dsimp only at hq
  split at hq
  · split at hq
    · simp at hq
    · split at hq
      · dsimp only at hq
        injection hq with h2
        exact parseFloatJS_nonneg _ q h2
      · exact parseFallback_rating_nonneg _ _ q hq
  · exact parseFallback_rating_nonneg _ _ q hq

/-- C7 witness: the nonnegativity theorem applied to a page whose
extracted rating is 3.8. -/
theorem claim_C7_rating_nonneg_witness :
    (parseSearchResults goodHtml "X").rating = some (JsNum.num (mkRat 19 5)) ∧
    (0 : ℚ) ≤ mkRat 19 5 :=
  ⟨by decide, claim_C7_rating_nonneg goodHtml "X" (mkRat 19 5) (by decide)⟩

/-! ### Claim C5 -/

/-- C5: on a cache miss with a configured credential and an HTTP 401 from
the API endpoint, the credential is deleted from configuration and the
call falls through to the scrape client, so the returned result is tagged
source scrape and the resulting state holds no credential; and once no
credential is stored, resolution never consults the API endpoint: its
response is irrelevant to the outcome. -/
theorem claim_C5_auth_invalidation :
    (∀ (env : Env) (st : St) (n b : String) (key : Credential),
      st.apiKey = some key →
      env.kvFail = none →
      cacheLookup (generateCacheKey b n) st.cache = none →
      env.apiResp = ApiResp.httpErr 401 →
      ∃ (r : RatingResult) (st2 : St),
        fetchBeerRating env st n b = Except.ok (r, st2) ∧
        r.source = some "scrape" ∧ st2.apiKey = none) ∧
    (∀ (env : Env) (a1 a2 : ApiResp) (st : St) (n b : String),
      st.apiKey = none →
      fetchBeerRating { env with apiResp := a1 } st n b =
        fetchBeerRating { env with apiResp := a2 } st n b) := by
  constructor
  · intro env st n b key hak hkv hl hapi
    unfold fetchBeerRating
    have hget : getCachedRating env st.cache b n = Except.ok (none, st.cache) := by
      unfold getCachedRating
      rw [hkv]
      dsimp only
      rw [hl]
    rw [hget]
    dsimp only
    rw [hak]
    dsimp only
    have hapi2 : fetchViaAPI env ⟨st.cache, some key⟩ n b =
        (fetchViaScrape env n b, { cache := st.cache, apiKey := none }) := by
      unfold fetchViaAPI
      rw [hapi]
      dsimp only
      simp
    rw [hapi2]
    dsimp only
    split
    · exact ⟨_, _, rfl, fetchViaScrape_source env n b, rfl⟩
    · exact ⟨_, _, rfl, fetchViaScrape_source env n b, rfl⟩
  · intro env a1 a2 st n b hak
    cases env
    unfold fetchBeerRating getCachedRating fetchViaScrape setCachedRating
    dsimp only
    rw [hak]

/-- C5 witness: the 401 part applied to the concrete credential state and
environment, plus the API-independence part at two distinct responses. -/
theorem claim_C5_auth_invalidation_witness :
    (∃ (r : RatingResult) (st2 : St),
      fetchBeerRating c5env c5st "n" "b" = Except.ok (r, st2) ∧
      r.source = some "scrape" ∧ st2.apiKey = none) ∧
    fetchBeerRating { c5env with apiResp := ApiResp.httpErr 500 } ⟨[], none⟩ "n" "b" =
      fetchBeerRating { c5env with apiResp := ApiResp.ok [] } ⟨[], none⟩ "n" "b" :=
  ⟨claim_C5_auth_invalidation.1 c5env c5st "n" "b" ⟨"id", "secret"⟩ rfl rfl rfl rfl,
   claim_C5_auth_invalidation.2 c5env (ApiResp.httpErr 500) (ApiResp.ok []) ⟨[], none⟩
     "n" "b" rfl⟩

/-! ### Claim C6 -/

/-- C6 counterexample: a scrape transport failure with an empty message
produces a result that carries an error string (the empty one), yet the
result is still written to the cache, because the code tests JS truthiness
of the error field rather than its presence. -/
theorem claim_C6_counterexample :
    fetchBeerRating c6env ⟨[], none⟩ "n" "b" =
      Except.ok (c6result, ⟨[("b_n", ⟨c6result, 1000⟩)], none⟩) ∧
    c6result.error = some "" := by
  refine ⟨rfl, rfl⟩

/-- C6 amended: on a cache miss the resolved result is written to the
cache if and only if its error field is JS-falsy, that is unset or the
empty string; a result with a nonempty error string is never stored and
the key still misses afterwards, so the next lookup fetches afresh. -/
theorem claim_C6_error_results_not_cached :
    ∀ (env : Env) (st : St) (n b : String),
      env.kvFail = none →
      cacheLookup (generateCacheKey b n) st.cache = none →
      ∃ (r : RatingResult) (st2 : St),
        fetchBeerRating env st n b = Except.ok (r, st2) ∧
        (jsTruthyStr r.error = true →
          st2.cache = st.cache ∧
          cacheLookup (generateCacheKey b n) st2.cache = none) ∧
        (jsTruthyStr r.error = false →
          st2.cache = cacheUpsert (generateCacheKey b n) ⟨r, env.now⟩ st.cache) := by
  intro env st n b hkv hl
  unfold fetchBeerRating
  have hget : getCachedRating env st.cache b n = Except.ok (none, st.cache) := by
    unfold getCachedRating
    rw [hkv]
    dsimp only
    rw [hl]
  rw [hget]
  dsimp only
  cases hak : st.apiKey with
  | some key =>
    dsimp only
    split
    · rename_i htr
      refine ⟨_, _, rfl, fun _ => ⟨?_, ?_⟩, fun hf => absurd htr (by rw [hf]; decide)⟩
      · exact fetchViaAPI_cache env ⟨st.cache, some key⟩ n b
      · rw [fetchViaAPI_cache env ⟨st.cache, some key⟩ n b]
        exact hl
    · rename_i htr
      refine ⟨_, _, rfl, fun ht => absurd ht (by rw [eq_false htr]; decide), fun _ => ?_⟩
      show setCachedRating env _ b n _ = _
      unfold setCachedRating
      rw [fetchViaAPI_cache env ⟨st.cache, some key⟩ n b]
  | none =>
    dsimp only
    split
    · rename_i htr
      exact ⟨_, _, rfl, fun _ => ⟨rfl, hl⟩, fun hf => absurd htr (by rw [hf]; decide)⟩
    · rename_i htr
      refine ⟨_, _, rfl, fun ht => absurd ht (by rw [eq_false htr]; decide), fun _ => rfl⟩

/-- C6 witness: the amended theorem applied to a failing scrape transport
with a nonempty message on an empty cache. -/
theorem claim_C6_error_results_not_cached_witness :
    ∃ (r : RatingResult) (st2 : St),
      fetchBeerRating ⟨1000, none, ApiResp.ok [], ScrapeResp.netFail "oops"⟩
        ⟨[], none⟩ "n" "b" = Except.ok (r, st2) ∧
      (jsTruthyStr r.error = true →
        st2.cache = ([] : CacheStore) ∧
        cacheLookup (generateCacheKey "b" "n") st2.cache = none) ∧
      (jsTruthyStr r.error = false →
        st2.cache = cacheUpsert (generateCacheKey "b" "n") ⟨r, 1000⟩ []) :=
  claim_C6_error_results_not_cached ⟨1000, none, ApiResp.ok [], ScrapeResp.netFail "oops"⟩
    ⟨[], none⟩ "n" "b" rfl rfl

end Untappd
